import Mathlib

/-!
Verification of the news-query pipeline of a Telegram GPT bot.

This file is a shallow embedding of the pure logic of `news_service.py` and
`semantic_query.py`.  Python strings are Lean `String`s (ASCII fragment:
`str.lower`, `str.isalpha`, `\w` and `\s` are embedded at their ASCII
meaning, which covers every input appearing in the claims).  Calendar dates
are embedded as integer day numbers: the result of `date.fromisoformat(s)`
is a value of type `Option Int` (`some d` when the string parses, `none`
when parsing raises and the code substitutes `date.today()`), and
`date.today()` is an explicit `today : Int` parameter.  Network calls are
oracles: an HTTP request is a value of type `Except Unit (List Article)`,
`.error ()` standing for a raised `requests` / HTTP-status exception and
`.ok arts` for a parsed `articles` payload (a response whose JSON fails to
parse yields `articles = []` in the code, hence `.ok []`).
-/

namespace NewsBot

/-- Python default whitespace characters stripped by `str.strip()` and
matched by the regex class `\s` (ASCII range). -/
def pyIsSpace (c : Char) : Bool :=
  c == ' ' || c == '\t' || c == '\n' || c == '\r' || c == '\x0b' || c == '\x0c'

/-- Property that a character list does not start with a character
satisfying `p`. -/
def noLead (p : Char → Bool) (l : List Char) : Prop :=
  ∀ c t, l = c :: t → p c = false

/-- Strip the characters satisfying `p` from both ends of a character list:
the list-level model of Python `str.strip`. -/
def stripWhile (p : Char → Bool) (l : List Char) : List Char :=
  ((l.dropWhile p).reverse.dropWhile p).reverse

/-- Python `s.strip()` with the default whitespace set. -/
def pyStrip (s : String) : String := ⟨stripWhile pyIsSpace s.data⟩

/-- Python `s.strip(chars)` for an explicit character set. -/
def pyStripChars (chars : List Char) (s : String) : String :=
  ⟨stripWhile (fun c => chars.contains c) s.data⟩

/-- Python `s.lower()` (ASCII embedding, as a character-wise map). -/
def pyLower (s : String) : String := ⟨s.data.map Char.toLower⟩

/-- Python `s.split(",")`: split on every comma, keeping empty pieces
(so the empty string yields one empty piece). -/
def splitCommaGo (cur : List Char) : List Char → List String
  | [] => [⟨cur.reverse⟩]
  | c :: cs =>
    if c == ',' then ⟨cur.reverse⟩ :: splitCommaGo [] cs
    else splitCommaGo (c :: cur) cs

/-- Python `s.split(",")`. -/
def pySplitComma (s : String) : List String := splitCommaGo [] s.data

/-- Bool test that `small` occurs at the head of `big`. -/
def charsStartWith : List Char → List Char → Bool
  | _, [] => true
  | [], _ :: _ => false
  | a :: as, b :: bs => a == b && charsStartWith as bs

/-- Bool test that `needle` occurs somewhere inside the second list:
the model of Python substring search (`needle in hay`, `re.search` on a
literal alternation). -/
def charsContain (needle : List Char) : List Char → Bool
  | [] => needle.isEmpty
  | c :: rest => charsStartWith (c :: rest) needle || charsContain needle rest

-- ---------------------------------------------------------------------------
-- semantic_query.py
-- ---------------------------------------------------------------------------

/-- QueryPlan of `semantic_query.extract_news_query`: the `entities`
sub-dictionary is flattened into the three entity fields. -/
structure QueryPlan where
  keywords : List String
  locations : List String
  organizations : List String
  people : List String
  categories : List String
deriving DecidableEq, Repr

/-- Concatenation order of `build_boolean_query` (semantic_query.py
lines 125-134): keywords, locations, organizations, people, categories. -/
def allTerms (p : QueryPlan) : List String :=
  p.keywords ++ p.locations ++ p.organizations ++ p.people ++ p.categories

/-- Shared de-duplication loop of semantic_query.py: strip the term, key on
its lowercase form, keep the first occurrence of each nonempty stripped
term and emit the stripped form.  This is both the keyword dedup of
`extract_news_query` (lines 107-115) and the term dedup of
`build_boolean_query` (lines 137-144), which are textually identical. -/
def dedupStripLower (seen : List String) : List String → List String
  | [] => []
  | k :: rest =>
    if !(pyStrip k == "") && !(seen.contains (pyLower (pyStrip k))) then
      pyStrip k :: dedupStripLower (pyLower (pyStrip k) :: seen) rest
    else
      dedupStripLower seen rest

/-- Term renderer of `build_boolean_query` (lines 150-152): strip, then
surround with double quotes when the term contains a space character
(Python tests `" " in s`). -/
def quote (s0 : String) : String :=
  if (pyStrip s0).data.contains ' ' then "\"" ++ pyStrip s0 ++ "\"" else pyStrip s0

/-- Python `" OR ".join(items)`. -/
def joinOr : List String → String
  | [] => ""
  | [x] => x
  | x :: y :: ys => x ++ " OR " ++ joinOr (y :: ys)

/-- `build_boolean_query` of semantic_query.py (lines 119-154). -/
def build_boolean_query (p : QueryPlan) : String :=
  if (dedupStripLower [] (allTerms p)).isEmpty then ""
  else joinOr ((dedupStripLower [] (allTerms p)).map quote)

/-- Word characters of the fallback tokenizer regex `[\w\-]+`
(ASCII embedding of `\w` plus hyphen). -/
def pyWordChar (c : Char) : Bool :=
  c.isAlphanum || c == '_' || c == '-'

/-- Accumulator loop splitting a character list into the maximal runs of
word characters, modelling `re.findall(r"[\w\-]+", text)`. -/
def findTokensGo (cur : List Char) : List Char → List (List Char)
  | [] => if cur.isEmpty then [] else [cur.reverse]
  | c :: cs =>
    if pyWordChar c then findTokensGo (c :: cur) cs
    else if cur.isEmpty then findTokensGo [] cs
    else cur.reverse :: findTokensGo [] cs

/-- Token list of the fallback path of `extract_news_query` (line 83). -/
def pyFindTokens (s : String) : List String :=
  (findTokensGo [] s.data).map (fun l => ⟨l⟩)

/-- Dedup key of the fallback keyword loop (line 88):
`tok.strip(' _-').lower()`. -/
def coreOf (tok : String) : String :=
  pyLower (pyStripChars [' ', '_', '-'] tok)

/-- Fallback keyword loop of `extract_news_query` (lines 85-91): keep a
token when its core is longer than 2 characters and its core is unseen;
the original token is emitted, the core is recorded. -/
def kwLoop (seen : List String) : List String → List String
  | [] => []
  | tok :: rest =>
    if 2 < (coreOf tok).length && !(seen.contains (coreOf tok)) then
      tok :: kwLoop (coreOf tok :: seen) rest
    else
      kwLoop seen rest

/-- Keywords produced by the fallback (exception) path of
`extract_news_query`: the loop above, capped at 12, replaced by the raw
user text when empty (line 97 `kw[:12] or [user_text]`), then passed
through the common keyword dedup of lines 107-115. -/
def fallback_keywords (user_text : String) : List String :=
  dedupStripLower []
    (if ((kwLoop [] (pyFindTokens user_text)).take 12).isEmpty then [user_text]
     else (kwLoop [] (pyFindTokens user_text)).take 12)

/-- Modelled from the claim C9 wording, not from the source: keep the
word-boundary tokens longer than 2 characters, de-duplicate them
case-insensitively keeping the first spelling, cap at 12.  Used only to
exhibit the divergence between the claim and the code. -/
def dedupByLowerKeepOrig (seen : List String) : List String → List String
  | [] => []
  | k :: rest =>
    if seen.contains (pyLower k) then dedupByLowerKeepOrig seen rest
    else k :: dedupByLowerKeepOrig (pyLower k :: seen) rest

/-- Modelled from the claim C9 wording, not from the source. -/
def claimed_keywords_C9 (text : String) : List String :=
  (dedupByLowerKeepOrig [] ((pyFindTokens text).filter (fun t => 2 < t.length))).take 12

-- ---------------------------------------------------------------------------
-- news_service.py: tunables and articles
-- ---------------------------------------------------------------------------

/-- Default of the env tunable `NEWS_TITLE_MIN_CHARS` (line 27). -/
def TITLE_MIN_CHARS : Nat := 20

/-- Default of the env tunable `NEWS_TITLE_MIN_ALPHA` (line 28). -/
def TITLE_MIN_ALPHA : Nat := 5

/-- Default of the env tunable `NEWS_MAX_WINDOW_DAYS` (line 31). -/
def MAX_WINDOW_DAYS : Int := 30

/-- Substrings recognised by the default deny regex
`/(programmes|schedule|live|video)/` of line 29: `re.search` of this
alternation succeeds exactly when one of the four literals occurs. -/
def URL_DENY_PARTS : List String :=
  ["/programmes/", "/schedule/", "/live/", "/video/"]

/-- Article dictionaries as consumed by the filters: the three fields the
code reads, each `Option` because a JSON value may be missing or null
(Python `a.get(k) or ""` is `(·.getD "")` here). -/
structure Article where
  title : Option String
  description : Option String
  url : Option String
deriving DecidableEq, Repr

/-- Value of `a.get("url") or ""`. -/
def urlOf (a : Article) : String := a.url.getD ""

/-- Accumulator loop of `_deduplicate_articles` (lines 285-291): keep an
article when its url is nonempty and unseen. -/
def dedupGoArts (seen : List String) : List Article → List Article
  | [] => []
  | a :: rest =>
    if !(urlOf a == "") && !(seen.contains (urlOf a)) then
      a :: dedupGoArts (urlOf a :: seen) rest
    else
      dedupGoArts seen rest

/-- `_deduplicate_articles` of news_service.py (lines 285-291). -/
def _deduplicate_articles (arts : List Article) : List Article :=
  dedupGoArts [] arts

/-- Deterministic model of `re.fullmatch` for the timestamp pattern of
line 319 (digits, a slash-or-dash class, digits, the class again, digits,
whitespace, a clock time, optional GMT or UTC) with `re.I`: digit run of
1-2, slash or dash, digit run of 1-2, slash or
dash, digit run of 2-4, whitespace run of 1+, digit run of 1-2, colon,
digit run of exactly 2, optional whitespace, optional GMT or UTC ignoring
case, end of string.  Every digit or whitespace run is followed by a token
its own class cannot match, so maximal munch agrees with the backtracking
semantics of the regex engine. -/
def isTsMatch (cs : List Char) : Bool :=
  let (d1, r1) := cs.span Char.isDigit
  if d1.length < 1 || 2 < d1.length then false else
  match r1 with
  | [] => false
  | sep1 :: r2 =>
    if !(sep1 == '/' || sep1 == '-') then false else
    let (d2, r3) := r2.span Char.isDigit
    if d2.length < 1 || 2 < d2.length then false else
    match r3 with
    | [] => false
    | sep2 :: r4 =>
      if !(sep2 == '/' || sep2 == '-') then false else
      let (d3, r5) := r4.span Char.isDigit
      if d3.length < 2 || 4 < d3.length then false else
      let (w1, r6) := r5.span pyIsSpace
      if w1.length < 1 then false else
      let (d4, r7) := r6.span Char.isDigit
      if d4.length < 1 || 2 < d4.length then false else
      match r7 with
      | [] => false
      | colon :: r8 =>
        if !(colon == ':') then false else
        let (d5, r9) := r8.span Char.isDigit
        if !(d5.length == 2) then false else
        let (_, r10) := r9.span pyIsSpace
        match r10.map Char.toLower with
        | [] => true
        | ['g', 'm', 't'] => true
        | ['u', 't', 'c'] => true
        | _ => false

/-- `_looks_like_timestamp` of news_service.py (lines 315-323): empty
title, full timestamp match, or fewer than `TITLE_MIN_ALPHA` alphabetic
characters. -/
def _looks_like_timestamp (title : String) : Bool :=
  let t := pyStrip title
  if t == "" then true
  else if isTsMatch t.data then true
  else if t.data.countP (fun c => c.isAlpha) < TITLE_MIN_ALPHA then true
  else false

/-- Model of `deny.search(url)` with the default deny regex and `re.I`:
case-insensitive substring search for one of the four literal paths. -/
def denyMatch (url : String) : Bool :=
  URL_DENY_PARTS.any (fun p => charsContain p.data (pyLower url).data)

/-- Keep-predicate of `_quality_filter_articles` (lines 325-340): drop on
timestamp-like title; drop on short title with short description; drop on
deny-listed url. -/
def qualityKeep (a : Article) : Bool :=
  if _looks_like_timestamp (pyStrip (a.title.getD "")) then false
  else if (pyStrip (a.title.getD "")).length < TITLE_MIN_CHARS ∧
      (pyStrip (a.description.getD "")).length < 40 then false
  else if denyMatch (urlOf a) then false
  else true

/-- `_quality_filter_articles` of news_service.py (lines 325-340). -/
def _quality_filter_articles (arts : List Article) : List Article :=
  arts.filter qualityKeep

-- ---------------------------------------------------------------------------
-- news_service.py: date window clamp
-- ---------------------------------------------------------------------------

/-- `_clamp_recent_window` of news_service.py (lines 254-282) over integer
day numbers.  `o_from` and `o_to` are the outcomes of
`date.fromisoformat` on the two argument strings (`none` when parsing
raises, in which case the code substitutes `today`); `provider_min_date`
likewise (`none` covering both the `None` argument and a failed parse). -/
def _clamp_recent_window (today : Int) (o_from o_to : Option Int) (max_days : Int)
    (provider_min_date : Option Int) : Int × Int :=
  let o_f := o_from.getD today
  let o_t := o_to.getD today
  let min_from0 := today - max_days
  let min_from :=
    match provider_min_date with
    | some pmin => if min_from0 < pmin then pmin else min_from0
    | none => min_from0
  let start := max o_f min_from
  let e := min o_t today
  let e2 := if e < start then start else e
  (start, e2)

-- ---------------------------------------------------------------------------
-- news_service.py: source / category resolution
-- ---------------------------------------------------------------------------

/-- Per-part normalisation of `_sanitize_sources` (line 104):
`part.strip().lower().replace(" ", "-")`. -/
def sanitizePart (p : String) : String :=
  ⟨(pyLower (pyStrip p)).data.map (fun c => if c == ' ' then '-' else c)⟩

/-- Dedup loop of `_sanitize_sources` (lines 99-107). -/
def sanGo (seen : List String) : List String → List String
  | [] => []
  | p :: rest =>
    if !(sanitizePart p == "") && !(seen.contains (sanitizePart p)) then
      sanitizePart p :: sanGo (sanitizePart p :: seen) rest
    else
      sanGo seen rest

/-- `_sanitize_sources` of news_service.py (lines 98-107): split every
entry on commas, normalise each part, de-duplicate preserving order.
(The `raw is None` guard of line 101 is vacuous here since the entries
are strings.) -/
def _sanitize_sources (sources : List String) : List String :=
  sanGo [] (sources.flatMap pySplitComma)

/-- Provider source catalog as cached by
`_fetch_supported_sources_from_provider`: the supported source ids
(`_SUPPORTED_SOURCES_CACHE`) and the per-id category metadata
(`_SUPPORTED_SOURCE_META`, restricted to the one field the resolver
reads). -/
structure SourceCatalog where
  ids : List String
  meta : List (String × String)
deriving DecidableEq, Repr

/-- Category lookup of line 187 / line 194:
`(_SUPPORTED_SOURCE_META.get(sid, {}).get("category") or "").strip().lower()`. -/
def categoryOf (catalog : SourceCatalog) (sid : String) : String :=
  pyLower (pyStrip ((catalog.meta.lookup sid).getD ""))

/-- Hard-coded minimal fallback of line 207. -/
def FALLBACK_TRIPLET : List String := ["reuters", "bbc-news", "associated-press"]

/-- Category-set normalisation of line 183:
`{c.strip().lower() for c in allowed_categories if c}` (a Python set, used
only through membership and emptiness, so a list is a faithful model). -/
def normCats (cats : List String) : List String :=
  (cats.filter (fun c => !(c == ""))).map (fun c => pyLower (pyStrip c))

/-- `_get_sources` of news_service.py (lines 168-210), with the curated
allow-list `DATA_SOURCES` and the cached provider catalog passed
explicitly.  `allowed_categories = none` covers both the `None` argument
and (by the line 182 truthiness test, whose outcome coincides with the
`ac` emptiness test modelled here) the empty list. -/
def _get_sources (data_sources : List String) (catalog : SourceCatalog)
    (allowed_categories : Option (List String)) : List String :=
  let desired := _sanitize_sources data_sources
  if desired.isEmpty then []
  else if catalog.ids.isEmpty then desired
  else
    let intersect := desired.filter (fun s => catalog.ids.contains s)
    let allowed :=
      match allowed_categories with
      | some cats =>
        let ac := normCats cats
        if ac.isEmpty then intersect
        else
          let filtered := intersect.filter (fun sid => ac.contains (categoryOf catalog sid))
          if !filtered.isEmpty then filtered
          else
            let alt := intersect.filter (fun sid => categoryOf catalog sid == "general")
            if !alt.isEmpty then alt else intersect
      | none => intersect
    if allowed.isEmpty then FALLBACK_TRIPLET else allowed

/-- Normalised intersection of the allow-list with the catalog keys, in
allow-list order (the `intersect` of line 179), as a standalone view used
by the claim statements. -/
def intersectOf (ds : List String) (catalog : SourceCatalog) : List String :=
  (_sanitize_sources ds).filter (fun s => catalog.ids.contains s)

/-- Members of the intersection categorised "general" (the `alt` of
line 194), as a standalone view used by the claim statements. -/
def generalOf (ds : List String) (catalog : SourceCatalog) : List String :=
  (intersectOf ds catalog).filter (fun sid => categoryOf catalog sid == "general")

-- ---------------------------------------------------------------------------
-- news_service.py: fetchers
-- ---------------------------------------------------------------------------

/-- `fetch_newsapi_top_news` of news_service.py (lines 345-363), over the
resolved source list and the response oracle of its single HTTP call (the
query, language and limit only shape the request parameters and are
irrelevant to the returned value). -/
def fetch_newsapi_top_news (srcs : List String)
    (resp : Except Unit (List Article)) : List Article :=
  if srcs.isEmpty then []
  else
    match resp with
    | .error _ => []
    | .ok arts => _quality_filter_articles (_deduplicate_articles arts)

/-- World state of one `fetch_general_news` call: the current UTC date,
the source ids and domains resolved by `_get_sources` /
`_get_allowed_domains` for the requested categories, and the response
oracles of the three possible HTTP calls (primary `everything`, the
`everything` domains retry, and the `top-headlines` fallback). -/
structure NewsEnv where
  today : Int
  sources : List String
  domains : List String
  everythingResp : Except Unit (List Article)
  domainsResp : Except Unit (List Article)
  topResp : Except Unit (List Article)
deriving Repr

/-- Generic top-headlines fallback as invoked with `q=""` by
`fetch_general_news` (lines 448, 453, 459). -/
def fetch_top_fallback (env : NewsEnv) : List Article :=
  fetch_newsapi_top_news env.sources env.topResp

/-- `fetch_general_news` of news_service.py (lines 365-459).  The clamped
window equals `today` exactly when the code's
`from_date.startswith(utc_today)` test succeeds, because both sides are
10-character ISO dates.  A malformed-JSON body on the primary call yields
`articles = []` in the code (lines 400-409) and is therefore the oracle
value `.ok []`, not `.error ()`; a status >= 400 or a network failure
raises and is `.error ()`. -/
def fetch_general_news (env : NewsEnv) (q : String) (o_from o_to : Option Int)
    (strict_window : Bool) : List Article :=
  if env.sources.isEmpty then []
  else
    let w := _clamp_recent_window env.today o_from o_to MAX_WINDOW_DAYS none
    match env.everythingResp with
    | .error _ =>
      -- lines 456-459: on hard errors, fallback only when not strict
      if strict_window then [] else fetch_top_fallback env
    | .ok arts =>
      if arts.isEmpty then
        -- lines 411-441: retry with domains= when any domains resolved
        let domainsResult : Option (List Article) :=
          if env.domains.isEmpty then none
          else
            match env.domainsResp with
            | .error _ => none
            | .ok arts2 =>
              if arts2.isEmpty then none
              else some (_quality_filter_articles (_deduplicate_articles arts2))
        match domainsResult with
        | some res => res
        | none =>
          -- lines 443-453: today-only fallback, then strict gate
          if strict_window && (w.1 == env.today) && (w.2 == env.today) then
            fetch_top_fallback env
          else if strict_window then [] else fetch_top_fallback env
      else
        _quality_filter_articles (_deduplicate_articles arts)

-- ---------------------------------------------------------------------------
-- Concrete values used by counterexamples and witnesses
-- ---------------------------------------------------------------------------

/-- Article that survives the quality filter and the dedup. -/
def articleA : Article :=
  { title := some "Parliament passes sweeping budget bill today"
  , description := some "Lawmakers approved the bill after a lengthy debate over spending."
  , url := some "https://example.com/news/budget-bill" }

/-- Environment whose primary search raises a hard error while the
top-headlines fallback would succeed. -/
def envErr : NewsEnv :=
  { today := 0, sources := ["reuters"], domains := []
  , everythingResp := .error (), domainsResp := .ok [], topResp := .ok [articleA] }

/-- Environment whose primary search returns zero articles (no hard
error), with no resolved domains, while the top-headlines fallback would
succeed. -/
def envEmpty : NewsEnv :=
  { envErr with everythingResp := .ok [] }

/-- Catalog of the worked example of claim C4: two supported ids,
"reuters" categorised general and "bbc-news" categorised business. -/
def exCatalog : SourceCatalog :=
  { ids := ["bbc-news", "reuters"]
  , meta := [("reuters", "general"), ("bbc-news", "business")] }

/-- Catalog for the C4 counterexample: "reuters" supported, no metadata. -/
def cexCatalogC4 : SourceCatalog :=
  { ids := ["reuters"], meta := [] }

/-- Plan for the C5 counterexample: a single keyword containing a tab. -/
def cexPlanC5 : QueryPlan :=
  { keywords := ["a\tb"], locations := [], organizations := []
  , people := [], categories := [] }

/-- Article with the timestamp-like title of claim C8 and a long
description. -/
def tsArticle : Article :=
  { title := some "3/14/2024 9:00 GMT"
  , description := some "A long descriptive text that would otherwise rescue a short title."
  , url := some "https://example.com/x" }

-- ---------------------------------------------------------------------------
-- Lemmas: the strip helper
-- ---------------------------------------------------------------------------

theorem noLead_dropWhile (p : Char → Bool) (l : List Char) :
    noLead p (List.dropWhile p l) := by
  induction l with
  | nil => intro c t h; simp at h
  | cons a as ih =>
    intro c t h
    cases hp : p a with
    | true =>
      rw [List.dropWhile_cons, if_pos hp] at h
      exact ih c t h
    | false =>
      rw [List.dropWhile_cons, if_neg (by simp [hp])] at h
      injection h with h1 _
      subst h1
      exact hp

theorem dropWhile_of_noLead (p : Char → Bool) (l : List Char) (h : noLead p l) :
    List.dropWhile p l = l := by
  cases l with
  | nil => rfl
  | cons a as => rw [List.dropWhile_cons, if_neg (by simp [h a as rfl])]

theorem noLead_reverse_dropWhile (p : Char → Bool) (xs : List Char)
    (h : noLead p xs.reverse) : noLead p (List.dropWhile p xs).reverse := by
  induction xs with
  | nil => simpa using h
  | cons a as ih =>
    cases hp : p a with
    | false =>
      rw [List.dropWhile_cons, if_neg (by simp [hp])]
      exact h
    | true =>
      rw [List.dropWhile_cons, if_pos hp]
      apply ih
      intro c t hc
      apply h c (t ++ [a])
      rw [List.reverse_cons, hc]
      simp

theorem stripWhile_eq_self (p : Char → Bool) (l : List Char)
    (h1 : noLead p l) (h2 : noLead p l.reverse) : stripWhile p l = l := by
  unfold stripWhile
  rw [dropWhile_of_noLead p l h1, dropWhile_of_noLead p l.reverse h2,
    List.reverse_reverse]

theorem noLead_stripWhile (p : Char → Bool) (l : List Char) :
    noLead p (stripWhile p l) :=
  noLead_reverse_dropWhile p (List.dropWhile p l).reverse
    (by rw [List.reverse_reverse]; exact noLead_dropWhile p l)

theorem noLead_reverse_stripWhile (p : Char → Bool) (l : List Char) :
    noLead p (stripWhile p l).reverse := by
  unfold stripWhile
  rw [List.reverse_reverse]
  exact noLead_dropWhile p _

theorem stripWhile_idem (p : Char → Bool) (l : List Char) :
    stripWhile p (stripWhile p l) = stripWhile p l :=
  stripWhile_eq_self p _ (noLead_stripWhile p l) (noLead_reverse_stripWhile p l)

theorem stripWhile_eq_self_of_all (p : Char → Bool) (l : List Char)
    (h : ∀ c ∈ l, p c = false) : stripWhile p l = l :=
  stripWhile_eq_self p l
    (fun c t hl => h c (by rw [hl]; exact List.mem_cons_self c t))
    (fun c t hl => h c (List.mem_reverse.mp (by rw [hl]; exact List.mem_cons_self c t)))

theorem pyStrip_idem (s : String) : pyStrip (pyStrip s) = pyStrip s :=
  String.ext (stripWhile_idem pyIsSpace s.data)

theorem pyStrip_eq_self_of_no_ws (s : String)
    (h : ∀ c ∈ s.data, pyIsSpace c = false) : pyStrip s = s :=
  String.ext (stripWhile_eq_self_of_all pyIsSpace s.data h)

-- ---------------------------------------------------------------------------
-- Lemmas: the shared strip-and-lower dedup loop
-- ---------------------------------------------------------------------------

theorem dsl_sublist (l : List String) : ∀ seen,
    (dedupStripLower seen l).Sublist (l.map pyStrip) := by
  induction l with
  | nil => intro seen; simp [dedupStripLower]
  | cons k rest ih =>
    intro seen
    simp only [dedupStripLower, List.map_cons]
    split
    · exact List.Sublist.cons₂ _ (ih _)
    · exact List.Sublist.cons _ (ih seen)

theorem dsl_mem (l : List String) : ∀ seen t, t ∈ dedupStripLower seen l →
    (∃ k ∈ l, t = pyStrip k) ∧ pyStrip t = t ∧ t ≠ "" ∧
      seen.contains (pyLower t) = false := by
  induction l with
  | nil => intro seen t h; simp [dedupStripLower] at h
  | cons k rest ih =>
    intro seen t h
    simp only [dedupStripLower] at h
    split at h
    case isTrue hc =>
      simp only [Bool.and_eq_true, Bool.not_eq_true'] at hc
      rcases List.mem_cons.mp h with rfl | hmem
      · refine ⟨⟨k, List.mem_cons_self k rest, rfl⟩, pyStrip_idem k, ?_, ?_⟩
        · intro heq
          rw [heq] at hc
          simp at hc
        · exact hc.2
      · obtain ⟨⟨k', hk', rfl⟩, hidem, hne, hcont⟩ := ih _ _ hmem
        refine ⟨⟨k', List.mem_cons_of_mem _ hk', rfl⟩, hidem, hne, ?_⟩
        simp only [List.contains_cons, Bool.or_eq_false_iff] at hcont
        exact hcont.2
    case isFalse =>
      obtain ⟨⟨k', hk', rfl⟩, hidem, hne, hcont⟩ := ih seen t h
      exact ⟨⟨k', List.mem_cons_of_mem _ hk', rfl⟩, hidem, hne, hcont⟩

theorem dsl_pairwise (l : List String) : ∀ seen,
    (dedupStripLower seen l).Pairwise (fun a b => pyLower a ≠ pyLower b) := by
  induction l with
  | nil => intro seen; simp [dedupStripLower]
  | cons k rest ih =>
    intro seen
    simp only [dedupStripLower]
    split
    · refine List.Pairwise.cons ?_ (ih _)
      intro b hb
      have hcont := (dsl_mem rest _ b hb).2.2.2
      simp only [List.contains_cons, Bool.or_eq_false_iff] at hcont
      intro heq
      have h1 := hcont.1
      rw [heq] at h1
      simp at h1
    · exact ih seen

theorem dsl_eq_nil_of_all (l : List String) : ∀ seen,
    (∀ t ∈ l, pyStrip t = "") → dedupStripLower seen l = [] := by
  induction l with
  | nil => intro seen _; simp [dedupStripLower]
  | cons k rest ih =>
    intro seen h
    have hk := h k (List.mem_cons_self k rest)
    have hcond : (!(pyStrip k == "") && !(seen.contains (pyLower (pyStrip k)))) = false := by
      simp [hk]
    simp only [dedupStripLower, hcond, Bool.false_eq_true, if_false]
    exact ih seen (fun t ht => h t (List.mem_cons_of_mem _ ht))

theorem dsl_eq_nil_forall (l : List String) : ∀ seen,
    dedupStripLower seen l = [] → ∀ t ∈ l,
      pyStrip t = "" ∨ seen.contains (pyLower (pyStrip t)) = true := by
  induction l with
  | nil => intro seen _ t ht; simp at ht
  | cons k rest ih =>
    intro seen hnil t ht
    simp only [dedupStripLower] at hnil
    split at hnil
    case isTrue => exact absurd hnil (by simp)
    case isFalse hc =>
      rcases List.mem_cons.mp ht with rfl | hmem
      · by_cases hs : pyStrip t = ""
        · exact Or.inl hs
        · right
          cases hcon : seen.contains (pyLower (pyStrip t)) with
          | true => rfl
          | false =>
            refine absurd ?_ hc
            rw [hcon]
            simp [hs]
      · exact ih seen hnil t hmem

-- ---------------------------------------------------------------------------
-- Lemmas: the OR-join and the string length
-- ---------------------------------------------------------------------------

theorem length_pos_of_ne_empty (s : String) (h : s ≠ "") : 0 < s.length := by
  cases hs : s.data with
  | nil =>
    exfalso
    apply h
    apply String.ext
    rw [hs]
  | cons c cs =>
    have hlen : s.length = s.data.length := rfl
    rw [hlen, hs]
    simp

theorem joinOr_length_pos (x : String) (xs : List String) (hx : 0 < x.length) :
    0 < (joinOr (x :: xs)).length := by
  cases xs with
  | nil => simpa [joinOr]
  | cons y ys =>
    simp only [joinOr, String.length_append]
    omega

theorem quote_length_pos (t : String) (hidem : pyStrip t = t) (hne : t ≠ "") :
    0 < (quote t).length := by
  rw [quote, hidem]
  split
  · have h1 : ("\"" : String).length = 1 := by decide
    rw [String.length_append, String.length_append, h1]
    omega
  · exact length_pos_of_ne_empty t hne

-- ---------------------------------------------------------------------------
-- Claim C5 (corrected)
-- ---------------------------------------------------------------------------

/-- Claim C5, amended.  `build_boolean_query` concatenates keywords,
locations, organizations, people and categories, de-duplicates the
whitespace-stripped terms by their lowercase form preserving first-seen
order (the emitted term list is a sublist of the stripped concatenation
and no two emitted terms share a lowercase form), joins them with " OR ",
quotes every emitted term containing a space character, and returns the
empty string iff every entry of the term-bearing fields is empty or
whitespace-only.  (The original claim fails in two ways, witnessed by
`C5_counterexample`: a term whose only whitespace is a tab is emitted
unquoted, and a whitespace-only entry yields an empty result from a
non-empty field.) -/
theorem C5_amended (p : QueryPlan) :
    (build_boolean_query p = "" ↔ ∀ t ∈ allTerms p, pyStrip t = "") ∧
    (dedupStripLower [] (allTerms p)).Sublist ((allTerms p).map pyStrip) ∧
    (dedupStripLower [] (allTerms p)).Pairwise (fun a b => pyLower a ≠ pyLower b) ∧
    (∀ t ∈ dedupStripLower [] (allTerms p), t.data.contains ' ' = true →
      quote t = "\"" ++ t ++ "\"") := by
  refine ⟨⟨?_, ?_⟩, dsl_sublist (allTerms p) [], dsl_pairwise (allTerms p) [], ?_⟩
  · intro h t ht
    cases hu : dedupStripLower [] (allTerms p) with
    | nil =>
      have := dsl_eq_nil_forall (allTerms p) [] hu t ht
      rcases this with h1 | h2
      · exact h1
      · simp at h2
    | cons x xs =>
      exfalso
      rw [build_boolean_query, hu] at h
      simp only [List.isEmpty_cons, Bool.false_eq_true, if_false, List.map_cons] at h
      have hx := dsl_mem (allTerms p) [] x (by rw [hu]; exact List.mem_cons_self x xs)
      have hpos := joinOr_length_pos (quote x) (xs.map quote)
        (quote_length_pos x hx.2.1 hx.2.2.1)
      rw [h] at hpos
      simp at hpos
  · intro h
    rw [build_boolean_query, dsl_eq_nil_of_all (allTerms p) [] h]
    rfl
  · intro t ht hsp
    have hx := dsl_mem (allTerms p) [] t ht
    rw [quote, hx.2.1, if_pos hsp]

/-- Counterexample to claim C5 as stated: for the plan whose single
keyword is "a" tab "b", the emitted term contains whitespace (the tab)
yet the output contains no quote character; moreover the keywords field
of the plan `QueryPlan.mk [" "] [] [] [] []` is non-empty while the built
query is empty. -/
theorem C5_counterexample :
    build_boolean_query cexPlanC5 = "a\tb" ∧
    ("a\tb").data.any pyIsSpace = true ∧
    ("a\tb").data.contains '"' = false ∧
    build_boolean_query (QueryPlan.mk [" "] [] [] [] []) = "" := by
  refine ⟨by decide, by decide, by decide, by decide⟩

-- ---------------------------------------------------------------------------
-- Claim C6 (confirmed)
-- ---------------------------------------------------------------------------

/-- Claim C6.  Applying the quality filter twice equals applying it once:
the filter is a pointwise filter by a pure predicate. -/
theorem C6_quality_filter_idempotent (A : List Article) :
    _quality_filter_articles (_quality_filter_articles A) = _quality_filter_articles A := by
  unfold _quality_filter_articles
  rw [List.filter_filter]
  simp [Bool.and_self]

-- ---------------------------------------------------------------------------
-- Claim C8 (confirmed)
-- ---------------------------------------------------------------------------

/-- Claim C8.  The title "3/14/2024 9:00 GMT" is classified as
timestamp-like by `_looks_like_timestamp`, and any article carrying this
title is dropped by the quality filter regardless of its description and
url (the timestamp test is the first branch of the keep-predicate). -/
theorem C8_timestamp_dropped (a : Article) (A : List Article)
    (h : a.title = some "3/14/2024 9:00 GMT") :
    _looks_like_timestamp "3/14/2024 9:00 GMT" = true ∧
    a ∉ _quality_filter_articles A := by
  constructor
  · decide
  · intro hmem
    have hk : qualityKeep a = true := (List.mem_filter.mp hmem).2
    have hts : _looks_like_timestamp (pyStrip "3/14/2024 9:00 GMT") = true := by decide
    simp only [qualityKeep, h, Option.getD_some, hts, if_true] at hk
    simp at hk

/-- Witness for C8 at a concrete article with a long description. -/
theorem C8_witness :
    _looks_like_timestamp "3/14/2024 9:00 GMT" = true ∧
    tsArticle ∉ _quality_filter_articles [tsArticle] :=
  C8_timestamp_dropped tsArticle [tsArticle] rfl

-- ---------------------------------------------------------------------------
-- Lemmas: the article dedup loop
-- ---------------------------------------------------------------------------

theorem keepCond_false {u : String} {seen : List String}
    (hc : ¬(!(u == "") && !(seen.contains u)) = true) :
    u = "" ∨ seen.contains u = true := by
  by_cases h1 : u = ""
  · exact Or.inl h1
  · right
    cases h2 : seen.contains u with
    | true => rfl
    | false => exact absurd (by rw [h2]; simp [h1]) hc

theorem beq_str_symm_false {a b : String} (h : (a == b) = false) : (b == a) = false := by
  cases h' : b == a with
  | false => rfl
  | true =>
    have hba : b = a := by simpa using h'
    rw [hba] at h
    simp at h

theorem dga_sublist (l : List Article) : ∀ seen, (dedupGoArts seen l).Sublist l := by
  induction l with
  | nil => intro seen; simp [dedupGoArts]
  | cons a rest ih =>
    intro seen
    simp only [dedupGoArts]
    split
    · exact List.Sublist.cons₂ _ (ih _)
    · exact List.Sublist.cons _ (ih seen)

theorem dga_mem_iff (l : List Article) : ∀ seen a,
    a ∈ dedupGoArts seen l ↔
      (urlOf a ≠ "" ∧ seen.contains (urlOf a) = false ∧
        l.find? (fun b => urlOf b == urlOf a) = some a) := by
  induction l with
  | nil => intro seen a; simp [dedupGoArts]
  | cons x rest ih =>
    intro seen a
    simp only [dedupGoArts]
    split
    case isTrue hc =>
      simp only [Bool.and_eq_true, Bool.not_eq_true'] at hc
      constructor
      · intro hmem
        rcases List.mem_cons.mp hmem with rfl | hmem'
        · refine ⟨?_, hc.2, ?_⟩
          · intro he
            rw [he] at hc
            simp at hc
          · rw [List.find?_cons]
            simp
        · obtain ⟨hne, hcont, hfind⟩ := (ih _ a).mp hmem'
          simp only [List.contains_cons, Bool.or_eq_false_iff] at hcont
          refine ⟨hne, hcont.2, ?_⟩
          rw [List.find?_cons]
          have hxa : (urlOf x == urlOf a) = false := beq_str_symm_false hcont.1
          simp only [hxa]
          exact hfind
      · rintro ⟨hne, hcont, hfind⟩
        rw [List.find?_cons] at hfind
        cases hxa : (urlOf x == urlOf a) with
        | true =>
          simp only [hxa] at hfind
          have hax : x = a := by simpa using hfind
          rw [hax]
          exact List.mem_cons_self a _
        | false =>
          simp only [hxa] at hfind
          apply List.mem_cons_of_mem
          apply (ih _ a).mpr
          refine ⟨hne, ?_, hfind⟩
          simp only [List.contains_cons, Bool.or_eq_false_iff]
          exact ⟨beq_str_symm_false hxa, hcont⟩
    case isFalse hc =>
      have hdead := keepCond_false hc
      constructor
      · intro hmem
        obtain ⟨hne, hcont, hfind⟩ := (ih seen a).mp hmem
        refine ⟨hne, hcont, ?_⟩
        rw [List.find?_cons]
        have hxa : (urlOf x == urlOf a) = false := by
          cases h' : urlOf x == urlOf a with
          | false => rfl
          | true =>
            exfalso
            have hequ : urlOf x = urlOf a := by simpa using h'
            rcases hdead with h0 | h0
            · rw [hequ] at h0
              exact hne h0
            · rw [hequ] at h0
              rw [h0] at hcont
              simp at hcont
        simp only [hxa]
        exact hfind
      · rintro ⟨hne, hcont, hfind⟩
        rw [List.find?_cons] at hfind
        cases hxa : (urlOf x == urlOf a) with
        | true =>
          exfalso
          simp only [hxa] at hfind
          have hax : x = a := by simpa using hfind
          have hequ : urlOf x = urlOf a := by rw [hax]
          rcases hdead with h0 | h0
          · rw [hequ] at h0
            exact hne h0
          · rw [hequ] at h0
            rw [h0] at hcont
            simp at hcont
        | false =>
          simp only [hxa] at hfind
          exact (ih seen a).mpr ⟨hne, hcont, hfind⟩

theorem dga_pairwise (l : List Article) : ∀ seen,
    (dedupGoArts seen l).Pairwise (fun x y => urlOf x ≠ urlOf y) := by
  induction l with
  | nil => intro seen; simp [dedupGoArts]
  | cons x rest ih =>
    intro seen
    simp only [dedupGoArts]
    split
    · refine List.Pairwise.cons ?_ (ih _)
      intro b hb
      have hcont := ((dga_mem_iff rest _ b).mp hb).2.1
      simp only [List.contains_cons, Bool.or_eq_false_iff] at hcont
      intro heq
      have h1 := hcont.1
      rw [← heq] at h1
      simp at h1
    · exact ih seen

-- ---------------------------------------------------------------------------
-- Claim C7 (confirmed)
-- ---------------------------------------------------------------------------

/-- Claim C7.  `_deduplicate_articles` preserves first-seen order — its
result is a sublist of the input and an article is in the result exactly
when it is the first input article carrying its (nonempty) URL — and the
result contains no two articles with the same URL. -/
theorem C7_dedup_first_seen (A : List Article) :
    (_deduplicate_articles A).Sublist A ∧
    (_deduplicate_articles A).Pairwise (fun x y => urlOf x ≠ urlOf y) ∧
    ∀ a : Article, a ∈ _deduplicate_articles A ↔
      (urlOf a ≠ "" ∧ A.find? (fun b => urlOf b == urlOf a) = some a) := by
  refine ⟨dga_sublist A [], dga_pairwise A [], ?_⟩
  intro a
  have h := dga_mem_iff A [] a
  simpa [_deduplicate_articles] using h

-- ---------------------------------------------------------------------------
-- Claim C10 (confirmed)
-- ---------------------------------------------------------------------------

/-- Claim C10.  `_deduplicate_articles` drops every article whose url
field is missing or empty, hence such an article never appears in the
output of `fetch_newsapi_top_news` either. -/
theorem C10_no_missing_url (A : List Article) (srcs : List String)
    (resp : Except Unit (List Article)) (a : Article)
    (h : a ∈ _deduplicate_articles A ∨ a ∈ fetch_newsapi_top_news srcs resp) :
    a.url ≠ none ∧ a.url ≠ some "" := by
  have hu : urlOf a ≠ "" := by
    rcases h with h1 | h2
    · exact ((dga_mem_iff A [] a).mp h1).1
    · rw [fetch_newsapi_top_news.eq_def] at h2
      split at h2
      · simp at h2
      · cases resp with
        | error e => simp at h2
        | ok arts =>
          have hd : a ∈ _deduplicate_articles arts :=
            List.mem_of_mem_filter h2
          exact ((dga_mem_iff arts [] a).mp hd).1
  constructor
  · intro hn
    rw [urlOf, hn] at hu
    simp at hu
  · intro hn
    rw [urlOf, hn] at hu
    simp at hu

/-- Witness for C10 at a concrete article and input list. -/
theorem C10_witness : articleA.url ≠ none ∧ articleA.url ≠ some "" :=
  C10_no_missing_url [articleA] [] (.ok []) articleA (Or.inl (by decide))

-- ---------------------------------------------------------------------------
-- Lemmas: the fallback tokenizer and keyword loop
-- ---------------------------------------------------------------------------

theorem wordChar_not_space (c : Char) (h : pyWordChar c = true) :
    pyIsSpace c = false := by
  cases hs : pyIsSpace c with
  | false => rfl
  | true =>
    exfalso
    simp only [pyIsSpace, Bool.or_eq_true, beq_iff_eq] at hs
    rcases hs with ((((rfl | rfl) | rfl) | rfl) | rfl) | rfl <;> exact absurd h (by decide)

theorem findTokensGo_words (l : List Char) : ∀ cur,
    (∀ c ∈ cur, pyWordChar c = true) →
    ∀ tk ∈ findTokensGo cur l, tk ≠ [] ∧ ∀ c ∈ tk, pyWordChar c = true := by
  induction l with
  | nil =>
    intro cur hcur tk htk
    simp only [findTokensGo] at htk
    split at htk
    · simp at htk
    case isFalse hne =>
      simp only [List.mem_singleton] at htk
      subst htk
      refine ⟨?_, fun c hc => hcur c (List.mem_reverse.mp hc)⟩
      intro h0
      apply hne
      simp only [List.reverse_eq_nil_iff] at h0
      rw [h0]
      rfl
  | cons c cs ih =>
    intro cur hcur tk htk
    simp only [findTokensGo] at htk
    by_cases hw : pyWordChar c = true
    · rw [if_pos hw] at htk
      refine ih (c :: cur) ?_ tk htk
      intro d hd
      rcases List.mem_cons.mp hd with rfl | hd'
      · exact hw
      · exact hcur d hd'
    · rw [if_neg hw] at htk
      split at htk
      next => exact ih [] (by simp) tk htk
      next hne =>
        rcases List.mem_cons.mp htk with rfl | htk'
        · refine ⟨?_, fun d hd => hcur d (List.mem_reverse.mp hd)⟩
          intro h0
          apply hne
          simp only [List.reverse_eq_nil_iff] at h0
          rw [h0]
          rfl
        · exact ih [] (by simp) tk htk'

theorem pyFindTokens_no_ws (s : String) : ∀ t ∈ pyFindTokens s,
    pyStrip t = t ∧ t ≠ "" := by
  intro t ht
  simp only [pyFindTokens, List.mem_map] at ht
  obtain ⟨l, hl, rfl⟩ := ht
  have hw := findTokensGo_words s.data [] (by simp) l hl
  constructor
  · exact pyStrip_eq_self_of_no_ws _ (fun c hc => wordChar_not_space c (hw.2 c hc))
  · intro h0
    apply hw.1
    have := congrArg String.data h0
    simpa using this

theorem kwLoop_mem (toks : List String) : ∀ seen k, k ∈ kwLoop seen toks →
    k ∈ toks ∧ 2 < (coreOf k).length ∧ seen.contains (coreOf k) = false := by
  induction toks with
  | nil => intro seen k h; simp [kwLoop] at h
  | cons tok rest ih =>
    intro seen k h
    simp only [kwLoop] at h
    split at h
    case isTrue hc =>
      simp only [Bool.and_eq_true, Bool.not_eq_true'] at hc
      rcases List.mem_cons.mp h with rfl | h'
      · exact ⟨List.mem_cons_self k rest, of_decide_eq_true hc.1, hc.2⟩
      · obtain ⟨hmem, hlen, hcont⟩ := ih _ k h'
        simp only [List.contains_cons, Bool.or_eq_false_iff] at hcont
        exact ⟨List.mem_cons_of_mem _ hmem, hlen, hcont.2⟩
    case isFalse =>
      obtain ⟨hmem, hlen, hcont⟩ := ih seen k h
      exact ⟨List.mem_cons_of_mem _ hmem, hlen, hcont⟩

-- ---------------------------------------------------------------------------
-- Claim C9 (corrected)
-- ---------------------------------------------------------------------------

/-- Claim C9, amended.  On the fallback path the plan's keywords are at
most 12; each keyword is either a word-boundary token of the text whose
core (the token with spaces, underscores and hyphens stripped from its
ends, lowercased) is longer than 2 characters, or — when no token
qualifies — the whitespace-stripped input text itself; no two keywords
share a lowercase form; and when no token qualifies the keyword list is
exactly the singleton of the stripped text (empty when the text strips to
empty).  (The original claim fails, witnessed by
`C9_claim_counterexample`: tokens are gated on the length of their
stripped-lowered core rather than their own length, and when no token
qualifies the raw text is substituted rather than returning no
keywords.) -/
theorem C9_amended (text : String) :
    (fallback_keywords text).length ≤ 12 ∧
    (∀ k ∈ fallback_keywords text,
      (k ∈ pyFindTokens text ∧ 2 < (coreOf k).length) ∨ k = pyStrip text) ∧
    (fallback_keywords text).Pairwise (fun a b => pyLower a ≠ pyLower b) ∧
    (kwLoop [] (pyFindTokens text) = [] →
      fallback_keywords text = if pyStrip text = "" then [] else [pyStrip text]) := by
  refine ⟨?_, ?_, ?_, ?_⟩
  · rw [fallback_keywords]
    split
    · have h1 := (dsl_sublist [text] []).length_le
      simp only [List.length_map, List.length_singleton] at h1
      omega
    · have h1 := (dsl_sublist ((kwLoop [] (pyFindTokens text)).take 12) []).length_le
      rw [List.length_map, List.length_take] at h1
      have h2 : min 12 (kwLoop [] (pyFindTokens text)).length ≤ 12 := min_le_left _ _
      omega
  · intro k hk
    rw [fallback_keywords] at hk
    split at hk
    · obtain ⟨⟨k', hk', rfl⟩, _, _, _⟩ := dsl_mem [text] [] k hk
      right
      simp only [List.mem_singleton] at hk'
      rw [hk']
    · obtain ⟨⟨k', hk', rfl⟩, _, _, _⟩ := dsl_mem _ [] k hk
      left
      have hk'' : k' ∈ kwLoop [] (pyFindTokens text) :=
        List.mem_of_mem_take hk'
      have htok := kwLoop_mem (pyFindTokens text) [] k' hk''
      have hnws := pyFindTokens_no_ws text k' htok.1
      rw [hnws.1]
      exact ⟨htok.1, htok.2.1⟩
  · rw [fallback_keywords]
    exact dsl_pairwise _ []
  · intro h0
    rw [fallback_keywords, h0]
    simp only [List.take_nil, List.isEmpty_nil, if_true]
    by_cases hs : pyStrip text = ""
    · rw [if_pos hs]
      apply dsl_eq_nil_of_all
      intro t ht
      simp only [List.mem_singleton] at ht
      rw [ht]
      exact hs
    · rw [if_neg hs]
      simp [dedupStripLower, hs]

/-- Counterexample to claim C9 as stated: on the text "ab cd" every
word-boundary token has length 2, so the claimed keyword list is empty,
but the code substitutes the raw user text as a single keyword. -/
theorem C9_claim_counterexample :
    fallback_keywords "ab cd" = ["ab cd"] ∧ claimed_keywords_C9 "ab cd" = [] := by
  constructor
  · decide
  · decide

-- ---------------------------------------------------------------------------
-- Claim C3 (corrected)
-- ---------------------------------------------------------------------------

/-- Claim C3, amended.  With no provider floor, `_clamp_recent_window`
returns a pair with start ≤ end and today − start ≤ max_days for every
input; end ≤ today additionally holds provided max_days is non-negative
and the from-date does not parse to a date after today.  (The original
unconditional claim fails, witnessed by `C3_counterexample`: a future
from-date forces end = start past today.) -/
theorem C3_amended (today : Int) (o_from o_to : Option Int) (max_days : Int) :
    (_clamp_recent_window today o_from o_to max_days none).1 ≤
      (_clamp_recent_window today o_from o_to max_days none).2 ∧
    today - (_clamp_recent_window today o_from o_to max_days none).1 ≤ max_days ∧
    (0 ≤ max_days → o_from.getD today ≤ today →
      (_clamp_recent_window today o_from o_to max_days none).2 ≤ today) := by
  have h1 : today - max_days ≤ max (o_from.getD today) (today - max_days) :=
    le_max_right _ _
  have h3 : min (o_to.getD today) today ≤ today := min_le_right _ _
  refine ⟨?_, ?_, ?_⟩
  · unfold _clamp_recent_window
    dsimp only
    split <;> omega
  · unfold _clamp_recent_window
    dsimp only
    omega
  · intro hmax hfrom
    have h2 : max (o_from.getD today) (today - max_days) ≤ today :=
      max_le hfrom (by omega)
    unfold _clamp_recent_window
    dsimp only
    split <;> omega

/-- Witness for C3 at a concrete past window, discharging the inner
hypotheses of the conditional conjunct. -/
theorem C3_witness :
    (_clamp_recent_window 0 (some (-1)) (some 0) 30 none).1 ≤
      (_clamp_recent_window 0 (some (-1)) (some 0) 30 none).2 ∧
    0 - (_clamp_recent_window 0 (some (-1)) (some 0) 30 none).1 ≤ 30 ∧
    (_clamp_recent_window 0 (some (-1)) (some 0) 30 none).2 ≤ 0 :=
  ⟨(C3_amended 0 (some (-1)) (some 0) 30).1,
   (C3_amended 0 (some (-1)) (some 0) 30).2.1,
   (C3_amended 0 (some (-1)) (some 0) 30).2.2 (by decide) (by decide)⟩

/-- Counterexample to claim C3 as stated: with today = 0 and both dates
parsing to day 5 (a future date), the clamp returns (5, 5), whose end
exceeds today, violating end ≤ today. -/
theorem C3_counterexample :
    _clamp_recent_window 0 (some 5) (some 5) 30 none = (5, 5) ∧
    ¬((_clamp_recent_window 0 (some 5) (some 5) 30 none).2 ≤ 0) := by
  constructor
  · decide
  · decide

-- ---------------------------------------------------------------------------
-- Claim C4 (corrected)
-- ---------------------------------------------------------------------------

/-- Claim C4, amended.  When the provider catalog is non-empty and the
normalized intersection of the allow-list with the catalog keys is
non-empty: with no category filter `_get_sources` returns that
intersection in allow-list order, and with a category filter matching no
intersection member it returns the intersection members categorized
"general" whenever there are any.  The two worked examples of the claim
hold.  (The original universally-quantified claim fails, witnessed by
`C4_counterexample`: an empty intersection yields the hard-coded
three-outlet fallback, not the intersection.) -/
theorem C4_amended (ds : List String) (catalog : SourceCatalog) (cats : List String)
    (h1 : catalog.ids ≠ []) (h2 : intersectOf ds catalog ≠ []) :
    (_get_sources ds catalog none = intersectOf ds catalog) ∧
    (normCats cats ≠ [] →
      (intersectOf ds catalog).filter
        (fun sid => (normCats cats).contains (categoryOf catalog sid)) = [] →
      generalOf ds catalog ≠ [] →
      _get_sources ds catalog (some cats) = generalOf ds catalog) ∧
    (_get_sources ["reuters", "bbc-news", "madeup-outlet"] exCatalog none =
      ["reuters", "bbc-news"]) ∧
    (_get_sources ["reuters", "bbc-news", "madeup-outlet"] exCatalog (some ["sports"]) =
      ["reuters"]) := by
  have hdes : (_sanitize_sources ds).isEmpty = false := by
    rw [List.isEmpty_eq_false]
    intro hd
    exact h2 (by rw [intersectOf, hd]; rfl)
  have hids : catalog.ids.isEmpty = false := by
    rw [List.isEmpty_eq_false]
    exact h1
  have hint : (intersectOf ds catalog).isEmpty = false := by
    rw [List.isEmpty_eq_false]
    exact h2
  refine ⟨?_, ?_, by decide, by decide⟩
  · simp only [_get_sources, hdes, hids, Bool.false_eq_true, if_false]
    rw [show ((_sanitize_sources ds).filter (fun s => catalog.ids.contains s)) =
        intersectOf ds catalog from rfl]
    simp only [hint, Bool.false_eq_true, if_false]
  · intro hac hfil hgen
    have hac' : (normCats cats).isEmpty = false := by
      rw [List.isEmpty_eq_false]
      exact hac
    have hgen' : (generalOf ds catalog).isEmpty = false := by
      rw [List.isEmpty_eq_false]
      exact hgen
    simp only [_get_sources, hdes, hids, Bool.false_eq_true, if_false, hac']
    rw [show ((_sanitize_sources ds).filter (fun s => catalog.ids.contains s)) =
        intersectOf ds catalog from rfl]
    rw [show ((intersectOf ds catalog).filter
        (fun sid => categoryOf catalog sid == "general")) =
        generalOf ds catalog from rfl]
    simp only [hfil, hgen', List.isEmpty_nil, Bool.not_true, Bool.not_false,
      Bool.false_eq_true, if_false, if_true, hgen]

/-- Witness for the amended C4 at the worked example of the claim. -/
theorem C4_witness :
    _get_sources ["reuters", "bbc-news", "madeup-outlet"] exCatalog none =
      intersectOf ["reuters", "bbc-news", "madeup-outlet"] exCatalog :=
  (C4_amended ["reuters", "bbc-news", "madeup-outlet"] exCatalog ["sports"]
    (by decide) (by decide)).1

/-- Counterexample to claim C4 as stated: for the allow-list
["madeup-outlet"] and a catalog supporting only "reuters", the normalized
intersection is empty, yet `_get_sources` returns the hard-coded triplet
rather than that empty intersection. -/
theorem C4_counterexample :
    intersectOf ["madeup-outlet"] cexCatalogC4 = [] ∧
    _get_sources ["madeup-outlet"] cexCatalogC4 none =
      ["reuters", "bbc-news", "associated-press"] := by
  constructor
  · decide
  · decide

-- ---------------------------------------------------------------------------
-- Claim C1 (corrected)
-- ---------------------------------------------------------------------------

/-- Claim C1, amended.  When the primary everything search raises a hard
network/HTTP error, `fetch_general_news` does not run the fallback ladder
at all: it skips the domains retry and the today-only top-headlines step
and immediately returns the empty list when strict_window is true, or the
generic top-headlines fallback when strict_window is false.  Hard errors
therefore permit the generic fallback only when strict_window is false.
(The original claim fails, witnessed by `C1_counterexample`: under
strict_window a hard error returns empty where the zero-results ladder
would have produced the today-only top-headlines fallback.) -/
theorem C1_amended (env : NewsEnv) (q : String) (o_from o_to : Option Int)
    (strict_window : Bool) (h : env.everythingResp = .error ()) :
    fetch_general_news env q o_from o_to strict_window =
      if strict_window then [] else fetch_top_fallback env := by
  simp only [fetch_general_news, h]
  cases hs : env.sources.isEmpty with
  | true =>
    simp only [hs, if_true]
    simp only [fetch_top_fallback, fetch_newsapi_top_news, hs, if_true]
    cases strict_window <;> simp
  | false =>
    simp only [hs, Bool.false_eq_true, if_false]

/-- Witness for the amended C1: a hard error with strict_window false
falls through to the generic top-headlines fallback. -/
theorem C1_witness :
    fetch_general_news envErr "" (some 0) (some 0) false =
      if false then [] else fetch_top_fallback envErr :=
  C1_amended envErr "" (some 0) (some 0) false rfl

/-- Counterexample to claim C1 as stated: in `envErr` the primary search
raises a hard error and the requested window is exactly today, yet the
strict fetch returns empty, while the identical environment with a
zero-results (non-error) primary response runs the ladder and returns the
top-headlines fallback article.  Hard errors neither trigger the same
ladder as zero results nor permit fallback under strict_window. -/
theorem C1_counterexample :
    fetch_general_news envErr "" (some 0) (some 0) true = [] ∧
    fetch_general_news envEmpty "" (some 0) (some 0) true = [articleA] ∧
    fetch_top_fallback envErr = [articleA] := by
  refine ⟨by decide, by decide, by decide⟩

-- ---------------------------------------------------------------------------
-- Claim C2 (corrected)
-- ---------------------------------------------------------------------------

/-- Claim C2, amended.  When the primary everything search and the
domains retry both return zero articles without a hard error,
`fetch_general_news` falls back to the generic top-headlines fetch if
strict_window is false, or if strict_window is true and the clamped
window — the result of `_clamp_recent_window` on the requested dates —
is exactly the current day; otherwise it returns the empty list.  (The
original claim, which gates the today-only fallback on the requested
window rather than the clamped window, fails: see `C2_counterexample`.) -/
theorem C2_amended (env : NewsEnv) (q : String) (o_from o_to : Option Int)
    (strict_window : Bool)
    (h1 : env.everythingResp = .ok [])
    (h2 : env.domainsResp = .ok []) :
    fetch_general_news env q o_from o_to strict_window =
      if strict_window then
        (if ((_clamp_recent_window env.today o_from o_to MAX_WINDOW_DAYS none).1 == env.today) &&
            ((_clamp_recent_window env.today o_from o_to MAX_WINDOW_DAYS none).2 == env.today) then
          fetch_top_fallback env
        else [])
      else fetch_top_fallback env := by
  simp only [fetch_general_news, h1, h2]
  cases hs : env.sources.isEmpty with
  | true =>
    simp only [hs, if_true]
    simp only [fetch_top_fallback, fetch_newsapi_top_news, hs, if_true]
    cases strict_window
    · simp
    · simp only [if_true]
      split <;> rfl
  | false =>
    simp only [hs, Bool.false_eq_true, if_false, List.isEmpty_nil, if_true]
    cases hd : env.domains.isEmpty with
    | true =>
      simp only [hd, if_true]
      cases strict_window
      · simp
      · simp only [Bool.true_and, if_true]
    | false =>
      simp only [hd, Bool.false_eq_true, if_false, List.isEmpty_nil, if_true]
      cases strict_window
      · simp
      · simp only [Bool.true_and, if_true]

/-- Witness for the amended C2: zero results everywhere under strict with
the window clamping to today yields the top-headlines fallback. -/
theorem C2_witness :
    fetch_general_news envEmpty "" (some 0) (some 0) true =
      if true then
        (if ((_clamp_recent_window envEmpty.today (some 0) (some 0) MAX_WINDOW_DAYS none).1 == envEmpty.today) &&
            ((_clamp_recent_window envEmpty.today (some 0) (some 0) MAX_WINDOW_DAYS none).2 == envEmpty.today) then
          fetch_top_fallback envEmpty
        else [])
      else fetch_top_fallback envEmpty :=
  C2_amended envEmpty "" (some 0) (some 0) true rfl rfl

/-- Counterexample to claim C2 as stated: with today = 0 the requested
window (0, 5) is not exactly the current day, strict_window is true and
every search returns zero articles, so the claim demands the empty list;
but the window clamps to (0, 0) and the code substitutes the generic
top-headlines articles. -/
theorem C2_counterexample :
    fetch_general_news envEmpty "" (some 0) (some 5) true = [articleA] ∧
    ([articleA] : List Article) ≠ [] := by
  constructor
  · decide
  · intro h
    simp at h

end NewsBot
